import Mathlib

/-!
Verification model of the YouTubeMP3Utility repository.

The development shallowly embeds the three core components:

* `src/services/metadata_service.py` (class `MetadataService`): file
  validation, tag reading, backup creation with a disk-space precondition and
  a size-verification step, and the backup/mutate/verify/rollback sequence of
  `apply_metadata`.
* `src/services/download_monitor.py` (class `DownloadMonitor`): the
  downloads-folder write probe, the size-stability plus header-signature
  completion heuristic of `wait_for_completion`, and the polling loop of
  `detect_new_mp3`.
* `src/controllers/main_controller.py` (class `MainController`): the
  single-flight guard of `_handle_download_request`.

Python file contents are modelled as a record of the attributes the code
observes (size, parse outcome, audio info, leading bytes, tag dictionary);
the directory is an association list from path strings to such records.
Operations that can raise in Python (shutil.copy2, mutagen load, save,
os.remove, shutil.move, file reads) are driven by explicit outcome
parameters, so each Lean function is total and enumerates exactly the
control paths of the source.
-/

namespace YTMP3

/-- Python str.lower, character by character (ASCII case folding). -/
def strLower (s : String) : String :=
  ⟨s.data.map Char.toLower⟩

/-- Python str.endswith: the final characters of `s` are exactly `t`. -/
def strEndsWith (s t : String) : Bool :=
  decide (t.data.length ≤ s.data.length) &&
    decide (s.data.drop (s.data.length - t.data.length) = t.data)

/-- Python str.strip: remove whitespace from both ends. -/
def strTrim (s : String) : String :=
  ⟨((s.data.dropWhile Char.isWhitespace).reverse.dropWhile Char.isWhitespace).reverse⟩

/-- Leading bytes of an ID3v2 container tag: the ASCII codes of I, D, 3. -/
def id3Magic : List Nat := [73, 68, 51]

/-- Header acceptance test of `MetadataService.validate_mp3_file`
(metadata_service.py lines 238-244): ten leading bytes are read; when at
least three are present the file must begin with the ID3 magic, or with an
MPEG frame sync (first byte 0xFF, second byte with its top three bits set);
with fewer than three bytes the check is skipped. -/
def headerCheckValidate (h : List Nat) : Bool :=
  if 3 ≤ h.length then
    decide (h.take 3 = id3Magic) ||
      (decide (2 ≤ h.length) && decide (h.getD 0 0 = 255) &&
        decide ((h.getD 1 0) &&& 224 = 224))
  else true

/-- Header acceptance test of `DownloadMonitor.wait_for_completion`
(download_monitor.py line 285): the file must provide at least three leading
bytes and begin with the ID3 magic or with the exact byte pair 0xFF 0xFB. -/
def headerCheckMonitor (h : List Nat) : Bool :=
  decide (3 ≤ h.length) &&
    (decide (h.take 3 = id3Magic) || decide (h.take 2 = [255, 251]))

/-- One file on disk, carrying exactly the attributes the Python code
observes: the ID3 tag dictionary (`none` when the file has no tag block),
the byte size, whether `mutagen.mp3.MP3` parses it, whether the parse
yields audio info, the reported duration, the leading bytes, whether
opening and reading it raises, and an opaque audio-payload identifier. -/
structure MP3File where
  tags : Option (List (String × String))
  sizeB : Nat
  parseOk : Bool
  hasInfo : Bool
  durLen : Int
  header : List Nat
  readRaises : Bool
  payload : Nat
deriving DecidableEq

/-- The watched directory as a finite map from path strings to files. -/
abbrev FS : Type := List (String × MP3File)

/-- Path lookup (`os.path.exists` / content access). -/
def fsGet (fs : FS) (p : String) : Option MP3File :=
  (fs.find? (fun e => e.1 == p)).map (fun e => e.2)

/-- Write a file at a path, replacing any previous entry. -/
def fsSet (fs : FS) (p : String) (f : MP3File) : FS :=
  (p, f) :: fs.filter (fun e => !(e.1 == p))

/-- Delete the entry at a path (`os.remove`). -/
def fsErase (fs : FS) (p : String) : FS :=
  fs.filter (fun e => !(e.1 == p))

/-- `MetadataInfo` from src/models/data_models.py. -/
structure MetadataInfo where
  artist : String
  title : String
  album : String
  trackNumber : Int
  originalFilename : String
deriving DecidableEq

/-- `MetadataInfo.validate` (data_models.py): each empty-after-strip text
field and a non-positive track number contribute one error message; the
metadata is valid exactly when the returned list is empty. -/
def MetadataInfo.validate (m : MetadataInfo) : List String :=
  (if strTrim m.artist = "" then ["Artist cannot be empty."] else []) ++
  (if strTrim m.title = "" then ["Title cannot be empty."] else []) ++
  (if strTrim m.album = "" then ["Album cannot be empty."] else []) ++
  (if strTrim m.originalFilename = "" then ["Original filename cannot be empty."] else []) ++
  (if m.trackNumber ≤ 0 then ["Track number must be a positive integer."] else [])

/-- `MetadataService.validate_mp3_file` (metadata_service.py lines 202-254):
false when the path does not exist, when the lower-cased path does not end
in .mp3, when the size is below 1024 bytes, when the mutagen parse raises,
when the parse reports no audio info or a non-positive duration, when the
header read raises, or when the header check fails; every exception path of
the source returns false via its catch-all handler. -/
def validate_mp3_file (fs : FS) (path : String) : Bool :=
  match fsGet fs path with
  | none => false
  | some f =>
    if !(strEndsWith (strLower path) ".mp3") then false
    else if f.sizeB < 1024 then false
    else if !f.parseOk then false
    else if !f.hasInfo then false
    else if f.durLen ≤ 0 then false
    else if f.readRaises then false
    else headerCheckValidate f.header

/-- The four tag keys overwritten by `apply_metadata`. -/
def targetKeys : List String := ["TPE1", "TIT2", "TALB", "TRCK"]

/-- Lookup in a tag dictionary (association list, first match). -/
def lookupTag (ts : List (String × String)) (k : String) : Option String :=
  (ts.find? (fun e => e.1 == k)).map (fun e => e.2)

/-- Python dictionary assignment on a tag dictionary: replace the entry in
place when the key is present, append it otherwise. -/
def setTag (ts : List (String × String)) (k v : String) : List (String × String) :=
  if ts.any (fun e => e.1 == k) then ts.map (fun e => if e.1 == k then (k, v) else e)
  else ts ++ [(k, v)]

/-- The dictionary built by `MetadataService.read_metadata` (lines 60-93):
the four targeted keys first, in source order, then every other key of the
tag block. -/
def buildMeta (ts : List (String × String)) : List (String × String) :=
  targetKeys.filterMap (fun k => (lookupTag ts k).map (fun v => (k, v))) ++
    ts.filter (fun e => !(targetKeys.contains e.1))

/-- Failure modes of `MetadataService.backup_original` (lines 256-307). -/
inductive BackupErr
  | noFile
  | noSpace
  | copyOSError
  | verifyFailed
deriving DecidableEq

/-- The classified errors raised by `MetadataService` as `MetadataError`;
constructors follow the distinct raise sites of the source. `restoreFailed`
is the raise at lines 193-196 whose message begins with Critical error,
`applyFailed` the ordinary raise at lines 198-200. -/
inductive MetaErr
  | fileNotFound
  | invalidMP3
  | invalidMetadata
  | readFailed
  | backupFailed (e : BackupErr)
  | applyFailed
  | restoreFailed
deriving DecidableEq

/-- Whether an error is the critical data-loss-risk kind: only the
restore-failure raise carries the Critical error message prefix. -/
def MetaErr.critical : MetaErr → Bool
  | .restoreFailed => true
  | _ => false

/-- `MetadataService.read_metadata` (lines 36-103). `loadRaise` injects a
mutagen failure at the `MP3(file_path, ID3=ID3)` load. -/
def read_metadata (fs : FS) (path : String) (loadRaise : Bool) :
    Except MetaErr (List (String × String)) :=
  match fsGet fs path with
  | none => .error .fileNotFound
  | some f =>
    if !(validate_mp3_file fs path) then .error .invalidMP3
    else if loadRaise then .error .readFailed
    else .ok (buildMeta (f.tags.getD []))

/-- Outcome of the `shutil.copy2` call: it raises, or it writes a backup
file observed with byte size `n` (equal to the original on a faithful copy). -/
inductive CopyRes
  | raises
  | writesSize (n : Nat)
deriving DecidableEq

/-- Trace events of one mutation attempt, emitted at the corresponding
effect sites of the source: `copyStarted` at the `shutil.copy2` call,
`backedUp` once the backup exists and its size verification passed,
`written` at the `audio_file.save()` call, `verifiedOk` when the post-save
revalidation passed, `backupRemoved` at the successful `os.remove`,
`rolledBack` at a successful restore move, `restoreFailedEv` when the
restore move itself raised. -/
inductive Ev
  | copyStarted
  | backedUp
  | written
  | verifiedOk
  | backupRemoved
  | rolledBack
  | restoreFailedEv
deriving DecidableEq

/-- Result of `backup_original`: the returned backup path or error, the
directory contents after the call, and the emitted trace events. -/
structure BackupOut where
  res : Except BackupErr String
  fs : FS
  events : List Ev

/-- Backup file name built at metadata_service.py line 278: the original
path with a timestamped .backup suffix appended. -/
def backupName (path : String) (ts : Nat) : String :=
  path ++ ".backup." ++ toString ts

/-- `MetadataService.backup_original` (lines 256-307): require the file to
exist, require free disk space of at least twice the file size before any
copy is attempted, copy, then verify that the backup exists and its byte
size equals the original; any failure raises before returning a path. The
source re-wraps its own internal raises once through its catch-all clauses
(lines 300-307) before propagating; the constructors here name the
original raise sites, since the re-wrap performs no filesystem effect and
the propagated exception class is unchanged. -/
def backup_original (fs : FS) (path : String) (ts diskFree : Nat) (copy : CopyRes) : BackupOut :=
  match fsGet fs path with
  | none => ⟨.error .noFile, fs, []⟩
  | some f =>
    if diskFree < f.sizeB * 2 then ⟨.error .noSpace, fs, []⟩
    else
      match copy with
      | .raises => ⟨.error .copyOSError, fs, [.copyStarted]⟩
      | .writesSize n =>
        if n ≠ f.sizeB then
          ⟨.error .verifyFailed, fsSet fs (backupName path ts) { f with sizeB := n },
            [.copyStarted]⟩
        else
          ⟨.ok (backupName path ts), fsSet fs (backupName path ts) { f with sizeB := n },
            [.copyStarted, .backedUp]⟩

/-- Outcome of the `audio_file.save()` call: it raises, or it persists the
file; the persisted tag block and audio payload are determined by the code,
while the observed attributes of the rewritten file (size, parse outcome,
audio info, duration, leading bytes, read behaviour) are environment
parameters so that post-save corruption is expressible. -/
inductive SaveRes
  | raises
  | writes (sizeB : Nat) (parseOk hasInfo : Bool) (durLen : Int) (header : List Nat)
      (readRaises : Bool)
deriving DecidableEq

/-- Failure-injection environment for one `apply_metadata` call: the backup
timestamp, the free disk space, and the outcome of each fallible operation
in source order. -/
structure ApplyEnv where
  timestamp : Nat
  diskFree : Nat
  copyOutcome : CopyRes
  readRaise : Bool
  loadRaise : Bool
  saveOutcome : SaveRes
  removeRaise : Bool
  moveRaise : Bool
deriving DecidableEq

/-- The tag dictionary after the four assignments of metadata_service.py
lines 158-161 (TPE1, TIT2, TALB, then TRCK with the stringified track
number). The preservation loop at lines 163-173 performs no state change
(its body only continues), so the remaining entries are exactly those
already present in the loaded tag block. -/
def newTagsFor (old : List (String × String)) (mi : MetadataInfo) : List (String × String) :=
  setTag (setTag (setTag (setTag old "TPE1" mi.artist) "TIT2" mi.title) "TALB" mi.album)
    "TRCK" (toString mi.trackNumber)

/-- The file persisted by a non-raising `audio_file.save()`: the loaded tag
block with the four assignments applied, over the original audio payload,
with environment-chosen observed attributes. -/
def savedFileOf (orig : MP3File) (mi : MetadataInfo) (sz : Nat) (p hi : Bool) (dl : Int)
    (hd : List Nat) (rr : Bool) : MP3File :=
  { tags := some (newTagsFor (orig.tags.getD []) mi), sizeB := sz, parseOk := p,
    hasInfo := hi, durLen := dl, header := hd, readRaises := rr, payload := orig.payload }

/-- Outcome of the try block of `apply_metadata` (lines 146-186): normal
completion or an exception, each with the directory contents at that point
and the events emitted inside the block. -/
inductive BodyOut
  | ok (fs : FS) (events : List Ev)
  | fail (fs : FS) (events : List Ev)

/-- The try block of `apply_metadata` (lines 146-186): re-read the existing
metadata, load the file, apply the four tag assignments, save, revalidate,
and delete the backup; any raise exits to the handler with the directory
state at the raise. -/
def applyBody (fs1 : FS) (path : String) (mi : MetadataInfo) (orig : MP3File)
    (bpath : String) (env : ApplyEnv) : BodyOut :=
  match read_metadata fs1 path env.readRaise with
  | .error _ => .fail fs1 []
  | .ok _existing =>
    if env.loadRaise then .fail fs1 []
    else
      match env.saveOutcome with
      | .raises => .fail fs1 [.written]
      | .writes sz p hi dl hd rr =>
        if !(validate_mp3_file (fsSet fs1 path (savedFileOf orig mi sz p hi dl hd rr)) path) then
          .fail (fsSet fs1 path (savedFileOf orig mi sz p hi dl hd rr)) [.written]
        else if env.removeRaise then
          .fail (fsSet fs1 path (savedFileOf orig mi sz p hi dl hd rr)) [.written, .verifiedOk]
        else
          .ok (fsErase (fsSet fs1 path (savedFileOf orig mi sz p hi dl hd rr)) bpath)
            [.written, .verifiedOk, .backupRemoved]

/-- Result of `apply_metadata`: the overall outcome, the directory contents
after the call, the errors passed to the error handler, and the trace. -/
structure ApplyOut where
  res : Except MetaErr Unit
  fs : FS
  reports : List MetaErr
  events : List Ev

/-- The except handler of `apply_metadata` (lines 188-200): when the backup
file still exists, move it over the target path; a raise of that move is
reported and surfaced as the critical restore-failure error, otherwise the
ordinary application error is reported and raised. -/
def applyHandler (b : BodyOut) (path bpath : String) (moveRaise : Bool) : ApplyOut :=
  match b with
  | .ok fs evs => ⟨.ok (), fs, [], evs⟩
  | .fail fs evs =>
    match fsGet fs bpath with
    | some bfile =>
      if moveRaise then ⟨.error .restoreFailed, fs, [.restoreFailed], evs ++ [.restoreFailedEv]⟩
      else ⟨.error .applyFailed, fsErase (fsSet fs path bfile) bpath, [.applyFailed],
        evs ++ [.rolledBack]⟩
    | none => ⟨.error .applyFailed, fs, [.applyFailed], evs⟩

/-- `MetadataService.apply_metadata` (lines 105-200): existence check,
file validation, metadata validation, backup creation (wrapping any backup
failure, lines 137-144), then the try block and its handler. -/
def apply_metadata (fs : FS) (path : String) (mi : MetadataInfo) (env : ApplyEnv) : ApplyOut :=
  match fsGet fs path with
  | none => ⟨.error .fileNotFound, fs, [.fileNotFound], []⟩
  | some orig =>
    if !(validate_mp3_file fs path) then ⟨.error .invalidMP3, fs, [.invalidMP3], []⟩
    else if !(mi.validate.isEmpty) then ⟨.error .invalidMetadata, fs, [.invalidMetadata], []⟩
    else
      match (backup_original fs path env.timestamp env.diskFree env.copyOutcome).res with
      | .error e =>
        ⟨.error (.backupFailed e),
          (backup_original fs path env.timestamp env.diskFree env.copyOutcome).fs,
          [.backupFailed e],
          (backup_original fs path env.timestamp env.diskFree env.copyOutcome).events⟩
      | .ok bpath =>
        ⟨(applyHandler
            (applyBody (backup_original fs path env.timestamp env.diskFree env.copyOutcome).fs
              path mi orig bpath env) path bpath env.moveRaise).res,
          (applyHandler
            (applyBody (backup_original fs path env.timestamp env.diskFree env.copyOutcome).fs
              path mi orig bpath env) path bpath env.moveRaise).fs,
          (applyHandler
            (applyBody (backup_original fs path env.timestamp env.diskFree env.copyOutcome).fs
              path mi orig bpath env) path bpath env.moveRaise).reports,
          (backup_original fs path env.timestamp env.diskFree env.copyOutcome).events ++
            (applyHandler
              (applyBody (backup_original fs path env.timestamp env.diskFree env.copyOutcome).fs
                path mi orig bpath env) path bpath env.moveRaise).events⟩

/-! ### Download monitor (src/services/download_monitor.py) -/

/-- State of the stabilization loop of `wait_for_completion`: the count of
consecutive polls with an unchanged positive size, and the size seen at the
last poll (initialized to -1, which no actual size equals). -/
structure WaitState where
  stableCount : Nat
  lastSize : Int
deriving DecidableEq

/-- The stabilization poll ceiling of `DownloadMonitor` (`completion_timeout`,
download_monitor.py line 91): 30 one-second polls. -/
def completionTimeout : Nat := 30

/-- The polling loop of `wait_for_completion` (lines 268-311). `size i` is
the `os.path.getsize` observation at the poll one second after poll `i - 1`
(`none` when it raises, a definitive failure), `readHdr i` the leading
kilobyte read at poll `i` (`none` when the open or read raises, which is
tolerated and leaves the counter unchanged). An unchanged positive size
increments the counter; at a count of three the header is inspected: a
matching signature returns the poll index, a mismatch resets the counter to
zero and polling continues. A changed or zero size resets the counter and
records the new size. The fuel argument is the remaining poll budget. -/
def waitLoop (size : Nat → Option Nat) (readHdr : Nat → Option (List Nat)) :
    Nat → Nat → WaitState → Option Nat
  | 0, _, _ => none
  | fuel + 1, i, s =>
    match size i with
    | none => none
    | some sz =>
      if (sz : Int) = s.lastSize ∧ 0 < sz then
        if 3 ≤ s.stableCount + 1 then
          match readHdr i with
          | some h =>
            if headerCheckMonitor h then some i
            else waitLoop size readHdr fuel (i + 1) ⟨0, s.lastSize⟩
          | none => waitLoop size readHdr fuel (i + 1) ⟨s.stableCount + 1, s.lastSize⟩
        else waitLoop size readHdr fuel (i + 1) ⟨s.stableCount + 1, s.lastSize⟩
      else waitLoop size readHdr fuel (i + 1) ⟨0, (sz : Int)⟩

/-- `DownloadMonitor.wait_for_completion` (lines 253-316): `none` when the
file does not exist or the loop exhausts its poll budget without a stable,
signature-matching file; `some i` when the file is judged complete at poll
`i`. -/
def wait_for_completion (exists0 : Bool) (size : Nat → Option Nat)
    (readHdr : Nat → Option (List Nat)) : Option Nat :=
  if exists0 then waitLoop size readHdr completionTimeout 0 ⟨0, -1⟩ else none

/-- Errors raised as `DownloadError` by the monitor. -/
inductive DlErr
  | noDownloadsFolder
  | notAccessible
  | notActive
deriving DecidableEq

/-- A directory as observed by `_get_downloads_path` and
`start_monitoring`: existence, directory-ness, `os.access` readability, and
whether creating a file inside it succeeds. -/
structure DirInfo where
  present : Bool
  isDir : Bool
  readable : Bool
  writable : Bool
deriving DecidableEq

/-- The write probe of `_get_downloads_path` (download_monitor.py lines
118-125): open a marker file for writing inside the directory, then remove
it. Opening raises exactly when the directory is not writable; on success
the marker is removed again, so the probe leaves the directory unchanged
and reports whether the write succeeded. -/
def writeProbe (d : DirInfo) : Bool :=
  d.writable

/-- `DownloadMonitor._get_downloads_path` (lines 97-132): scan the candidate
paths and return the first that exists, is a directory, and passes the write
probe; raise when none does. A candidate failing only the probe is skipped
even though it exists and is readable. -/
def get_downloads_path (dirs : String → DirInfo) (candidates : List String) :
    Except DlErr String :=
  match candidates.find?
      (fun p => (dirs p).present && (dirs p).isDir && writeProbe (dirs p)) with
  | some p => .ok p
  | none => .error .noDownloadsFolder

/-- The monitor state relevant to watching: the resolved downloads path and
whether observation is active. -/
structure MonitorState where
  downloadsPath : String
  monitoring : Bool
deriving DecidableEq

/-- `DownloadMonitor.__init__` (lines 84-95): resolving the downloads path
runs the write probe; failure raises before a monitor exists. -/
def mkMonitor (dirs : String → DirInfo) (candidates : List String) :
    Except DlErr MonitorState :=
  (get_downloads_path dirs candidates).map (fun p => ⟨p, false⟩)

/-- `DownloadMonitor.start_monitoring` (lines 134-169): idempotent when
already active; re-checks that the resolved path exists and is readable,
then starts the observer. -/
def start_monitoring (dirs : String → DirInfo) (m : MonitorState) :
    Except DlErr MonitorState :=
  if m.monitoring then .ok m
  else if !((dirs m.downloadsPath).present && (dirs m.downloadsPath).readable) then
    .error .notAccessible
  else .ok { m with monitoring := true }

/-- The startWatching operation of the specification: construct the monitor
(which resolves and write-probes the downloads directory) and begin
observation; the returned state is the usable handle. -/
def startWatching (dirs : String → DirInfo) (candidates : List String) :
    Except DlErr MonitorState := do
  let m ← mkMonitor dirs candidates
  start_monitoring dirs m

/-- The scan rounds of `detect_new_mp3` (lines 228-241): each half-second
round either finds a detected file that `wait_for_completion` judges
complete (`some path`) or finds none; the finite list is the poll budget
within the timeout. -/
def detectRounds : List (Option String) → Except DlErr (Option String)
  | [] => .ok none
  | some f :: _ => .ok (some f)
  | none :: rest => detectRounds rest

/-- `DownloadMonitor.detect_new_mp3` (lines 209-251): raises when
monitoring is not active; otherwise polls until a file completes or the
timeout budget is exhausted, in which case it returns `none` rather than
raising. -/
def detect_new_mp3 (monitoring : Bool) (rounds : List (Option String)) :
    Except DlErr (Option String) :=
  if !monitoring then .error .notActive
  else detectRounds rounds

/-! ### Workflow orchestrator (src/controllers/main_controller.py) -/

/-- `UserInput` from src/models/data_models.py. -/
structure UserInput where
  youtubeUrl : String
  artist : String
  title : String
  album : String
  trackNumber : Int
deriving DecidableEq

/-- The message shown by `_handle_download_request` when a workflow is
already in flight (main_controller.py line 95). -/
def busyMessage : String :=
  "A download is already in progress. Please wait for it to complete."

/-- Observable orchestrator state: the in-flight flag, how many times the
browser automation (remote trigger) has been invoked, how many times
download monitoring has been started, the errors shown, and the successes
reported. -/
structure CtrlState where
  isProcessing : Bool
  browserRuns : Nat
  monitorStarts : Nat
  errors : List String
  successes : Nat
deriving DecidableEq

/-- Stage outcomes of one workflow run. -/
structure WorkflowEnv where
  browserOk : Bool
  monitorStartOk : Bool
  detected : Option String
  recentFiles : List String
  metadataOk : Bool
deriving DecidableEq

/-- `MainController._execute_download_workflow` (lines 106-162), with each
stage reduced to its observable effect: set the in-flight flag, invoke the
browser automation, start download monitoring with the fallback recent-file
scan, apply metadata, and in the finally block clear the in-flight flag. -/
def executeDownloadWorkflow (st : CtrlState) (env : WorkflowEnv) : CtrlState :=
  let st := { st with isProcessing := true }
  let st := { st with browserRuns := st.browserRuns + 1 }
  let st :=
    if !env.browserOk then { st with errors := st.errors ++ ["browser automation failed"] }
    else
      let st := { st with monitorStarts := st.monitorStarts + 1 }
      if !env.monitorStartOk then
        { st with errors := st.errors ++ ["monitoring failed to start"] }
      else
        match env.detected.orElse (fun _ => env.recentFiles.head?) with
        | none => { st with errors := st.errors ++ ["download timeout"] }
        | some f =>
          if env.metadataOk then { st with successes := st.successes + 1 }
          else { st with errors := st.errors ++ ["metadata error on " ++ f] }
  { st with isProcessing := false }

/-- Whether a submission was rejected by the single-flight guard or ran. -/
inductive SubmitRes
  | rejected
  | started
deriving DecidableEq

/-- `MainController._handle_download_request` (lines 84-104): while a
workflow is in flight the request is rejected with the busy error and
nothing else happens; otherwise the workflow executes. -/
def handleDownloadRequest (st : CtrlState) (env : WorkflowEnv) (_input : UserInput) :
    SubmitRes × CtrlState :=
  if st.isProcessing then (.rejected, { st with errors := st.errors ++ [busyMessage] })
  else (.started, executeDownloadWorkflow st env)

/-! ### Sample data for concrete witnesses -/

/-- A well-formed MP3 file carrying one unrelated tag entry. -/
def sampleFile : MP3File :=
  { tags := some [("COMM", "hello")], sizeB := 4000, parseOk := true, hasInfo := true,
    durLen := 180, header := [73, 68, 51, 4, 0, 0, 0, 0, 0, 0], readRaises := false,
    payload := 7 }

/-- A directory holding the sample file. -/
def sampleFS : FS := [("song.mp3", sampleFile)]

/-- Valid caller-supplied metadata fields. -/
def sampleMI : MetadataInfo :=
  { artist := "A", title := "T", album := "AL", trackNumber := 3,
    originalFilename := "song.mp3" }

/-- An environment in which every operation succeeds and the save persists a
well-formed file. -/
def envOk : ApplyEnv :=
  { timestamp := 11, diskFree := 100000, copyOutcome := .writesSize 4000,
    readRaise := false, loadRaise := false,
    saveOutcome := .writes 4100 true true 180 [73, 68, 51, 4, 0, 0, 0, 0, 0, 0] false,
    removeRaise := false, moveRaise := false }

/-- The same environment with a simulated write failure at the save. -/
def envSaveFails : ApplyEnv := { envOk with saveOutcome := .raises }

/-- A simulated write failure followed by a failing restore move. -/
def envRestoreFails : ApplyEnv := { envSaveFails with moveRaise := true }

/-- An environment whose free disk space is below twice the file size. -/
def envNoSpace : ApplyEnv := { envOk with diskFree := 100 }

/-- A sample user input. -/
def sampleInput : UserInput :=
  { youtubeUrl := "https://youtu.be/a1", artist := "A", title := "T", album := "AL",
    trackNumber := 3 }

/-! ### Directory-map lemmas -/

theorem fsGet_fsSet_self (fs : FS) (p : String) (f : MP3File) :
    fsGet (fsSet fs p f) p = some f := by
  simp [fsGet, fsSet]

theorem find?_key_filter_ne (l : List (String × MP3File)) (p q : String) (h : q ≠ p) :
    (l.filter (fun e => !(e.1 == p))).find? (fun e => e.1 == q) =
      l.find? (fun e => e.1 == q) := by
  induction l with
  | nil => rfl
  | cons a l ih =>
    by_cases hq : a.1 = q
    · have h1 : (a.1 == q) = true := by simp [hq]
      have h2 : (a.1 == p) = false := by simp [hq, h]
      simp [List.filter_cons, h2, h1]
    · have h1 : (a.1 == q) = false := by simp [hq]
      by_cases hp : a.1 = p
      · have h2 : (a.1 == p) = true := by simp [hp]
        simp [List.filter_cons, h2, h1, ih]
      · have h2 : (a.1 == p) = false := by simp [hp]
        simp [List.filter_cons, h2, h1, ih]

theorem fsGet_fsSet_ne (fs : FS) (p q : String) (f : MP3File) (h : q ≠ p) :
    fsGet (fsSet fs p f) q = fsGet fs q := by
  have hpq : (p == q) = false := by simp [Ne.symm h]
  simp only [fsGet, fsSet, List.find?_cons, hpq, Bool.false_eq_true, if_false]
  rw [find?_key_filter_ne fs p q h]

theorem fsGet_fsErase_ne (fs : FS) (p q : String) (h : q ≠ p) :
    fsGet (fsErase fs p) q = fsGet fs q := by
  simp only [fsGet, fsErase]
  rw [find?_key_filter_ne fs p q h]

theorem backupName_ne (p : String) (ts : Nat) : backupName p ts ≠ p := by
  intro h
  have hl : (backupName p ts).length = p.length := congrArg String.length h
  rw [backupName, String.length_append, String.length_append] at hl
  have h8 : (".backup." : String).length = 8 := by rfl
  rw [h8] at hl
  omega

/-! ### Claim C10 -/

/-- Claim C10: `validate_mp3_file` is total — in the model it is a Lean
function into `Bool`, with every exception path of the source represented
by an explicit false-returning branch — and it returns false for a
nonexistent path, for a path whose lower-cased form does not end in .mp3,
for a file smaller than 1024 bytes, and for a file whose mutagen parse or
header read raises. -/
theorem validate_mp3_file_totality (fs : FS) (path : String) :
    (fsGet fs path = none → validate_mp3_file fs path = false) ∧
    (strEndsWith (strLower path) ".mp3" = false → validate_mp3_file fs path = false) ∧
    (∀ f, fsGet fs path = some f → f.sizeB < 1024 → validate_mp3_file fs path = false) ∧
    (∀ f, fsGet fs path = some f → f.parseOk = false → validate_mp3_file fs path = false) ∧
    (∀ f, fsGet fs path = some f → f.readRaises = true → validate_mp3_file fs path = false) := by
  unfold validate_mp3_file
  cases h : fsGet fs path with
  | none => simp
  | some f =>
    refine ⟨by simp, ?_, ?_, ?_, ?_⟩
    · intro hext
      simp [hext]
    · intro g hg hsz
      cases hg
      split_ifs <;> simp_all
    · intro g hg hp
      cases hg
      split_ifs <;> simp_all
    · intro g hg hr
      cases hg
      split_ifs <;> simp_all

/-- Concrete instances of claim C10: a missing file, a non-mp3 extension,
and an undersized file are each rejected. -/
theorem validate_mp3_file_totality_witness :
    validate_mp3_file [] "a.mp3" = false ∧
    validate_mp3_file [("b.txt", sampleFile)] "b.txt" = false ∧
    validate_mp3_file [("c.mp3", { sampleFile with sizeB := 10 })] "c.mp3" = false :=
  ⟨(validate_mp3_file_totality [] "a.mp3").1 (by rfl),
   (validate_mp3_file_totality [("b.txt", sampleFile)] "b.txt").2.1 (by decide),
   (validate_mp3_file_totality [("c.mp3", { sampleFile with sizeB := 10 })] "c.mp3").2.2.1
     _ (by rfl) (by decide)⟩

/-! ### Claim C4 -/

/-- Claim C4: when the free disk space of the containing volume is below
twice the target file size, `apply_metadata` fails with a backup-class
error whose reason is the insufficient-space check, the directory is left
exactly as it was (in particular no backup file has been created), and the
copy is never attempted — the check is a precondition evaluated before the
`shutil.copy2` call. -/
theorem apply_metadata_no_space (fs : FS) (path : String) (mi : MetadataInfo) (env : ApplyEnv)
    (f : MP3File) (hf : fsGet fs path = some f)
    (hv : validate_mp3_file fs path = true) (hmi : mi.validate = [])
    (hspace : env.diskFree < f.sizeB * 2) :
    (apply_metadata fs path mi env).res = .error (.backupFailed .noSpace) ∧
    (apply_metadata fs path mi env).fs = fs ∧
    Ev.copyStarted ∉ (apply_metadata fs path mi env).events := by
  unfold apply_metadata backup_original
  rw [hf]
  simp [hv, hmi, hspace]

/-- Concrete instance of claim C4: with free space 100 against a 4000-byte
file, the call fails with the insufficient-space backup error and the
directory is unchanged. -/
theorem apply_metadata_no_space_witness :
    (apply_metadata sampleFS "song.mp3" sampleMI envNoSpace).res =
      .error (.backupFailed .noSpace) ∧
    (apply_metadata sampleFS "song.mp3" sampleMI envNoSpace).fs = sampleFS :=
  ⟨(apply_metadata_no_space sampleFS "song.mp3" sampleMI envNoSpace sampleFile
      (by rfl) (by decide) (by rfl) (by decide)).1,
   (apply_metadata_no_space sampleFS "song.mp3" sampleMI envNoSpace sampleFile
      (by rfl) (by decide) (by rfl) (by decide)).2.1⟩

/-! ### Claim C9 -/

theorem detectRounds_ne_error (rounds : List (Option String)) (e : DlErr) :
    detectRounds rounds ≠ .error e := by
  induction rounds with
  | nil => simp [detectRounds]
  | cons r rest ih =>
    cases r with
    | none => simpa [detectRounds] using ih
    | some f => simp [detectRounds]

/-- Claim C9: `detect_new_mp3` raises exactly when monitoring is not
active; when monitoring is active it never raises, and when no file is
detected and judged stable within the timeout budget it returns `none`
rather than an error. -/
theorem detect_new_mp3_timeout (rounds : List (Option String)) :
    detect_new_mp3 false rounds = .error .notActive ∧
    ((∀ r ∈ rounds, r = none) → detect_new_mp3 true rounds = .ok none) ∧
    (∀ e, detect_new_mp3 true rounds ≠ .error e) := by
  refine ⟨by simp [detect_new_mp3], ?_, ?_⟩
  · intro hall
    simp only [detect_new_mp3, Bool.not_true, Bool.false_eq_true, if_false]
    induction rounds with
    | nil => rfl
    | cons r rest ih =>
      have hr : r = none := hall r (by simp)
      subst hr
      exact ih (fun x hx => hall x (by simp [hx]))
  · intro e
    simpa [detect_new_mp3] using detectRounds_ne_error rounds e

/-- Concrete instance of claim C9: an inactive monitor raises, an active
monitor that sees no completed file within its budget returns `none`. -/
theorem detect_new_mp3_timeout_witness :
    detect_new_mp3 false [none] = .error .notActive ∧
    detect_new_mp3 true [none, none, none] = .ok none :=
  ⟨(detect_new_mp3_timeout [none]).1,
   (detect_new_mp3_timeout [none, none, none]).2.1 (by decide)⟩

/-! ### Claim C7 -/

/-- Claim C7: watching a directory that exists, is a directory, and is
readable but not writable fails with the filesystem-access error and
returns no usable handle; because the check is the create-then-delete
write probe and not merely a stat or access call, the stat-level
attributes (present, directory, readable) being true does not help. -/
theorem startWatching_unwritable (dirs : String → DirInfo) (cands : List String)
    (h : ∀ p ∈ cands, (dirs p).present = true ∧ (dirs p).isDir = true ∧
      (dirs p).readable = true ∧ (dirs p).writable = false) :
    startWatching dirs cands = .error .noDownloadsFolder := by
  have hfind : cands.find?
      (fun p => (dirs p).present && (dirs p).isDir && writeProbe (dirs p)) = none := by
    rw [List.find?_eq_none]
    intro p hp
    simp [writeProbe, (h p hp).2.2.2]
  simp [startWatching, mkMonitor, get_downloads_path, hfind, Bind.bind, Except.bind,
    Except.map]

/-- Concrete instance of claim C7: a single candidate directory that is
present, a directory, and readable, yet fails the write probe. -/
theorem startWatching_unwritable_witness :
    startWatching (fun _ => ⟨true, true, true, false⟩) ["~/Downloads"] =
      .error .noDownloadsFolder :=
  startWatching_unwritable (fun _ => ⟨true, true, true, false⟩) ["~/Downloads"]
    (by intro p _; exact ⟨rfl, rfl, rfl, rfl⟩)

/-! ### Claim C6 -/

/-- Claim C6: a download request arriving while a workflow is in flight is
rejected with the workflow-already-running error and has no side effects:
the browser automation is not invoked, download monitoring is not started,
no success is recorded, and the only state change is the busy error shown;
hence the rejected submission starts no second workflow worker. -/
theorem handle_download_request_single_flight (st : CtrlState) (env : WorkflowEnv)
    (ui : UserInput) (h : st.isProcessing = true) :
    (handleDownloadRequest st env ui).1 = .rejected ∧
    (handleDownloadRequest st env ui).2.browserRuns = st.browserRuns ∧
    (handleDownloadRequest st env ui).2.monitorStarts = st.monitorStarts ∧
    (handleDownloadRequest st env ui).2.successes = st.successes ∧
    (handleDownloadRequest st env ui).2 =
      { st with errors := st.errors ++ [busyMessage] } := by
  simp [handleDownloadRequest, h]

/-- Concrete instance of claim C6: a busy controller rejects a second
request and its trigger and monitor counters are unchanged. -/
theorem handle_download_request_single_flight_witness :
    (handleDownloadRequest ⟨true, 1, 1, [], 0⟩ ⟨true, true, none, [], true⟩ sampleInput).1 =
      .rejected ∧
    (handleDownloadRequest ⟨true, 1, 1, [], 0⟩ ⟨true, true, none, [], true⟩
      sampleInput).2.browserRuns = 1 ∧
    (handleDownloadRequest ⟨true, 1, 1, [], 0⟩ ⟨true, true, none, [], true⟩
      sampleInput).2.monitorStarts = 1 :=
  ⟨(handle_download_request_single_flight ⟨true, 1, 1, [], 0⟩ ⟨true, true, none, [], true⟩
      sampleInput (by rfl)).1,
   (handle_download_request_single_flight ⟨true, 1, 1, [], 0⟩ ⟨true, true, none, [], true⟩
      sampleInput (by rfl)).2.1,
   (handle_download_request_single_flight ⟨true, 1, 1, [], 0⟩ ⟨true, true, none, [], true⟩
      sampleInput (by rfl)).2.2.1⟩

/-! ### Claim C1 -/

theorem validate_mp3_file_congr (fs1 fs2 : FS) (path : String)
    (h : fsGet fs1 path = fsGet fs2 path) :
    validate_mp3_file fs1 path = validate_mp3_file fs2 path := by
  unfold validate_mp3_file
  rw [h]

theorem applyBody_fail_keeps (fs1 : FS) (path : String) (mi : MetadataInfo) (orig : MP3File)
    (bpath : String) (env : ApplyEnv) (fsb : FS) (evs : List Ev) (q : String)
    (hne : q ≠ path)
    (h : applyBody fs1 path mi orig bpath env = .fail fsb evs) :
    fsGet fsb q = fsGet fs1 q := by
  unfold applyBody at h
  split at h
  · cases h
    rfl
  · split at h
    · cases h
      rfl
    · split at h
      · cases h
        rfl
      · split at h
        · cases h
          exact fsGet_fsSet_ne _ _ _ _ hne
        · split at h
          · cases h
            exact fsGet_fsSet_ne _ _ _ _ hne
          · exact absurd h (by simp)

/-- Whenever the restore move itself does not raise, an `apply_metadata`
call either succeeds or leaves the target path with exactly its original
content: every failure before the save never touches it, and every failure
at or after the save is undone by moving the verified backup back over the
target. -/
theorem apply_metadata_target_preserved (fs : FS) (path : String) (mi : MetadataInfo)
    (env : ApplyEnv) (hmove : env.moveRaise = false) :
    (apply_metadata fs path mi env).res = .ok () ∨
    fsGet (apply_metadata fs path mi env).fs path = fsGet fs path := by
  unfold apply_metadata
  cases hget : fsGet fs path with
  | none => exact Or.inr hget
  | some orig =>
    dsimp only
    split_ifs with h1 h2
    · exact Or.inr hget
    · exact Or.inr hget
    · unfold backup_original
      rw [hget]
      dsimp only
      split_ifs with h3
      · exact Or.inr hget
      · cases hc : env.copyOutcome with
        | raises => exact Or.inr hget
        | writesSize n =>
          dsimp only
          split_ifs with h4
          · exact Or.inr
              ((fsGet_fsSet_ne _ _ _ _ (Ne.symm (backupName_ne path env.timestamp))).trans hget)
          · have hn : n = orig.sizeB := not_ne_iff.mp h4
            subst hn
            have heta : ({ orig with sizeB := orig.sizeB } : MP3File) = orig := rfl
            rw [heta, hmove]
            dsimp only
            cases hbd : applyBody (fsSet fs (backupName path env.timestamp) orig) path mi orig
                (backupName path env.timestamp) env with
            | ok fs3 evs3 =>
              exact Or.inl rfl
            | fail fsb evs3 =>
              have hkeep : fsGet fsb (backupName path env.timestamp) = some orig :=
                (applyBody_fail_keeps _ _ _ _ _ _ _ _ _ (backupName_ne path env.timestamp)
                    hbd).trans (fsGet_fsSet_self _ _ _)
              simp only [applyHandler, hkeep, Bool.false_eq_true, if_false]
              rw [fsGet_fsErase_ne _ _ _ (Ne.symm (backupName_ne path env.timestamp)),
                fsGet_fsSet_self]
              exact Or.inr rfl

/-- Claim C1: whenever `apply_metadata` fails (raises) and the restore move
of the except handler does not itself raise — the claim describes exactly
this restoration by moving the backup over the target path; the move
failing is the separately escalated case of claim C8 — the target path
holds exactly its original content after the call: failures injected
anywhere between backup creation and post-save verification, and even a
failing backup deletion after a successful save, leave the target file's
bytes equal to its bytes before the call. -/
theorem apply_metadata_rollback (fs : FS) (path : String) (mi : MetadataInfo)
    (env : ApplyEnv) (hmove : env.moveRaise = false) (e : MetaErr)
    (herr : (apply_metadata fs path mi env).res = .error e) :
    fsGet (apply_metadata fs path mi env).fs path = fsGet fs path := by
  rcases apply_metadata_target_preserved fs path mi env hmove with hok | hp
  · rw [hok] at herr
    exact absurd herr (by simp)
  · exact hp

/-- Concrete instance of claim C1: a simulated write failure at the save
leaves the sample file exactly as it was. -/
theorem apply_metadata_rollback_witness :
    fsGet (apply_metadata sampleFS "song.mp3" sampleMI envSaveFails).fs "song.mp3" =
      fsGet sampleFS "song.mp3" :=
  apply_metadata_rollback sampleFS "song.mp3" sampleMI envSaveFails (by rfl)
    .applyFailed (by rfl)

/-! ### Claim C3 -/

theorem applyHandler_res_not_backup (b : BodyOut) (path bpath : String) (mr : Bool) (e : BackupErr) :
    (applyHandler b path bpath mr).res ≠ .error (.backupFailed e) := by
  unfold applyHandler
  cases b with
  | ok fsb evs => simp
  | fail fsb evs =>
    dsimp only
    cases hb : fsGet fsb bpath with
    | none => simp
    | some bfile => split_ifs <;> simp

/-- In every run, either the trace contains the verified-backup event
strictly before the write event, or no write event was emitted at all. -/
theorem apply_metadata_backup_write_order (fs : FS) (path : String) (mi : MetadataInfo)
    (env : ApplyEnv) :
    [Ev.backedUp, Ev.written].Sublist (apply_metadata fs path mi env).events ∨
    Ev.written ∉ (apply_metadata fs path mi env).events := by
  unfold apply_metadata
  cases hget : fsGet fs path with
  | none => exact Or.inr (by simp)
  | some orig =>
    dsimp only
    split_ifs with h1 h2
    · exact Or.inr (by simp)
    · exact Or.inr (by simp)
    · unfold backup_original
      rw [hget]
      dsimp only
      split_ifs with h3
      · exact Or.inr (by simp)
      · cases hc : env.copyOutcome with
        | raises => exact Or.inr (by simp)
        | writesSize n =>
          dsimp only
          split_ifs with h4
          · exact Or.inr (by simp)
          · by_cases hw : Ev.written ∈
              (applyHandler
                (applyBody (fsSet fs (backupName path env.timestamp) { orig with sizeB := n })
                  path mi orig (backupName path env.timestamp) env)
                path (backupName path env.timestamp) env.moveRaise).events
            · exact Or.inl
                (List.Sublist.cons _ (List.Sublist.cons₂ _ (List.singleton_sublist.mpr hw)))
            · exact Or.inr (by simp [hw])

/-- In every run, either the result is not a backup-class failure, or no
write event was emitted. -/
theorem apply_metadata_backup_fail_no_write (fs : FS) (path : String) (mi : MetadataInfo)
    (env : ApplyEnv) :
    (∀ e, (apply_metadata fs path mi env).res ≠ .error (.backupFailed e)) ∨
    Ev.written ∉ (apply_metadata fs path mi env).events := by
  unfold apply_metadata
  cases hget : fsGet fs path with
  | none => exact Or.inr (by simp)
  | some orig =>
    dsimp only
    split_ifs with h1 h2
    · exact Or.inr (by simp)
    · exact Or.inr (by simp)
    · unfold backup_original
      rw [hget]
      dsimp only
      split_ifs with h3
      · exact Or.inr (by simp)
      · cases hc : env.copyOutcome with
        | raises => exact Or.inr (by simp)
        | writesSize n =>
          dsimp only
          split_ifs with h4
          · exact Or.inr (by simp)
          · exact Or.inl (fun e => applyHandler_res_not_backup _ _ _ _ e)

/-- Claim C3: in one mutation attempt no write to the target occurs unless
a backup whose byte size was verified equal to the original has been
created beforehand — every trace containing the write event contains the
verified-backup event strictly before it — and a failure to create or to
verify the backup (surfaced as a backup-class error) aborts the attempt
with no write event at all. -/
theorem apply_metadata_backup_before_write (fs : FS) (path : String) (mi : MetadataInfo)
    (env : ApplyEnv) :
    (Ev.written ∈ (apply_metadata fs path mi env).events →
      [Ev.backedUp, Ev.written].Sublist (apply_metadata fs path mi env).events) ∧
    (∀ e, (apply_metadata fs path mi env).res = .error (.backupFailed e) →
      Ev.written ∉ (apply_metadata fs path mi env).events) := by
  constructor
  · intro hw
    rcases apply_metadata_backup_write_order fs path mi env with hs | hn
    · exact hs
    · exact absurd hw hn
  · intro e he
    rcases apply_metadata_backup_fail_no_write fs path mi env with hne | hn
    · exact absurd he (hne e)
    · exact hn

/-- Concrete instances of claim C3: a successful run orders the verified
backup before the write, and a backup failure yields a trace with no write. -/
theorem apply_metadata_backup_before_write_witness :
    [Ev.backedUp, Ev.written].Sublist (apply_metadata sampleFS "song.mp3" sampleMI envOk).events ∧
    Ev.written ∉ (apply_metadata sampleFS "song.mp3" sampleMI envNoSpace).events :=
  ⟨(apply_metadata_backup_before_write sampleFS "song.mp3" sampleMI envOk).1 (by decide),
   (apply_metadata_backup_before_write sampleFS "song.mp3" sampleMI envNoSpace).2
     .noSpace (by rfl)⟩

/-! ### Claim C8 -/

theorem applyBody_ok_events (fs1 : FS) (path : String) (mi : MetadataInfo) (orig : MP3File)
    (bpath : String) (env : ApplyEnv) (fsb : FS) (evs : List Ev)
    (h : applyBody fs1 path mi orig bpath env = .ok fsb evs) :
    evs = [Ev.written, Ev.verifiedOk, Ev.backupRemoved] := by
  unfold applyBody at h
  split at h
  · exact absurd h (by simp)
  · split at h
    · exact absurd h (by simp)
    · split at h
      · exact absurd h (by simp)
      · split at h
        · exact absurd h (by simp)
        · split at h
          · exact absurd h (by simp)
          · cases h
            rfl

theorem applyBody_fail_events (fs1 : FS) (path : String) (mi : MetadataInfo) (orig : MP3File)
    (bpath : String) (env : ApplyEnv) (fsb : FS) (evs : List Ev)
    (h : applyBody fs1 path mi orig bpath env = .fail fsb evs) :
    evs = [] ∨ evs = [Ev.written] ∨ evs = [Ev.written, Ev.verifiedOk] := by
  unfold applyBody at h
  split at h
  · cases h
    exact Or.inl rfl
  · split at h
    · cases h
      exact Or.inl rfl
    · split at h
      · cases h
        exact Or.inr (Or.inl rfl)
      · split at h
        · cases h
          exact Or.inr (Or.inl rfl)
        · split at h
          · cases h
            exact Or.inr (Or.inr rfl)
          · exact absurd h (by simp)

/-- In every run, either no restore-failure event was emitted, or the call
surfaces the critical restore-failure error and reports it. -/
theorem apply_metadata_restore_ev_shape (fs : FS) (path : String) (mi : MetadataInfo)
    (env : ApplyEnv) :
    Ev.restoreFailedEv ∉ (apply_metadata fs path mi env).events ∨
    ((apply_metadata fs path mi env).res = .error .restoreFailed ∧
      MetaErr.restoreFailed ∈ (apply_metadata fs path mi env).reports) := by
  unfold apply_metadata
  cases hget : fsGet fs path with
  | none => exact Or.inl (by simp)
  | some orig =>
    dsimp only
    split_ifs with h1 h2
    · exact Or.inl (by simp)
    · exact Or.inl (by simp)
    · unfold backup_original
      rw [hget]
      dsimp only
      split_ifs with h3
      · exact Or.inl (by simp)
      · cases hc : env.copyOutcome with
        | raises => exact Or.inl (by simp)
        | writesSize n =>
          dsimp only
          split_ifs with h4
          · exact Or.inl (by simp)
          · dsimp only
            cases hbd : applyBody (fsSet fs (backupName path env.timestamp)
                { orig with sizeB := n }) path mi orig (backupName path env.timestamp) env with
            | ok fs3 evs3 =>
              have he := applyBody_ok_events _ _ _ _ _ _ _ _ hbd
              subst he
              exact Or.inl (by simp [applyHandler])
            | fail fsb evs3 =>
              have he := applyBody_fail_events _ _ _ _ _ _ _ _ hbd
              cases hb : fsGet fsb (backupName path env.timestamp) with
              | none =>
                exact Or.inl (by rcases he with rfl | rfl | rfl <;> simp [applyHandler, hb])
              | some bfile =>
                cases hmr : env.moveRaise with
                | true => exact Or.inr (by constructor <;> simp [applyHandler, hb, hmr])
                | false =>
                  exact Or.inl
                    (by rcases he with rfl | rfl | rfl <;> simp [applyHandler, hb, hmr])

/-- Claim C8: when the rollback restore itself fails inside
`apply_metadata`, the surfaced error is the distinct restore-failure kind
(the only kind the service classifies as critical), it is passed to the
error handler rather than swallowed, the call still reports overall
failure, and it is not coalesced with the ordinary mutation-failure error. -/
theorem apply_metadata_restore_failure_escalated (fs : FS) (path : String) (mi : MetadataInfo)
    (env : ApplyEnv)
    (h : Ev.restoreFailedEv ∈ (apply_metadata fs path mi env).events) :
    (apply_metadata fs path mi env).res = .error .restoreFailed ∧
    MetaErr.restoreFailed ∈ (apply_metadata fs path mi env).reports ∧
    (apply_metadata fs path mi env).res ≠ .error .applyFailed ∧
    MetaErr.critical .restoreFailed = true ∧
    MetaErr.critical .applyFailed = false := by
  rcases apply_metadata_restore_ev_shape fs path mi env with hn | ⟨hres, hrep⟩
  · exact absurd h hn
  · refine ⟨hres, hrep, ?_, rfl, rfl⟩
    rw [hres]
    simp

/-- Concrete instance of claim C8: a write failure followed by a failing
restore move surfaces and reports the critical restore-failure error. -/
theorem apply_metadata_restore_failure_escalated_witness :
    (apply_metadata sampleFS "song.mp3" sampleMI envRestoreFails).res =
      .error .restoreFailed ∧
    MetaErr.restoreFailed ∈ (apply_metadata sampleFS "song.mp3" sampleMI envRestoreFails).reports :=
  ⟨(apply_metadata_restore_failure_escalated sampleFS "song.mp3" sampleMI envRestoreFails
      (by decide)).1,
   (apply_metadata_restore_failure_escalated sampleFS "song.mp3" sampleMI envRestoreFails
      (by decide)).2.1⟩

/-! ### Tag-dictionary lemmas for claim C2 -/

theorem lookupTag_cons_hit (a : String × String) (l : List (String × String)) (k : String)
    (h : (a.1 == k) = true) : lookupTag (a :: l) k = some a.2 := by
  simp [lookupTag, List.find?_cons, h]

theorem lookupTag_cons_skip (a : String × String) (l : List (String × String)) (k : String)
    (h : (a.1 == k) = false) : lookupTag (a :: l) k = lookupTag l k := by
  simp [lookupTag, List.find?_cons, h]

theorem lookupTag_map_replace (ts : List (String × String)) (k v : String)
    (h : ts.any (fun e => e.1 == k) = true) :
    lookupTag (ts.map (fun e => if e.1 == k then (k, v) else e)) k = some v := by
  induction ts with
  | nil => simp at h
  | cons a l ih =>
    simp only [List.map_cons]
    by_cases ha : a.1 = k
    · have h1 : (a.1 == k) = true := by simp [ha]
      rw [show (if (a.1 == k) = true then (k, v) else a) = (k, v) by simp [h1]]
      rw [lookupTag_cons_hit _ _ _ (by simp)]
    · have h1 : (a.1 == k) = false := by simp [ha]
      have h2 : l.any (fun e => e.1 == k) = true := by
        simpa [List.any_cons, h1] using h
      rw [show (if (a.1 == k) = true then (k, v) else a) = a by simp [h1]]
      rw [lookupTag_cons_skip _ _ _ h1]
      exact ih h2

theorem find?_key_eq_none_of_any_false (ts : List (String × String)) (k : String)
    (h : ts.any (fun e => e.1 == k) = false) :
    ts.find? (fun e => e.1 == k) = none := by
  rw [List.find?_eq_none]
  intro e he hek
  have hany : ts.any (fun e => e.1 == k) = true := List.any_eq_true.mpr ⟨e, he, hek⟩
  rw [h] at hany
  exact Bool.false_ne_true hany

theorem lookupTag_append_entry (ts : List (String × String)) (k v : String)
    (h : ts.any (fun e => e.1 == k) = false) :
    lookupTag (ts ++ [(k, v)]) k = some v := by
  simp [lookupTag, List.find?_append, find?_key_eq_none_of_any_false ts k h, Option.or]

theorem lookupTag_setTag_self (ts : List (String × String)) (k v : String) :
    lookupTag (setTag ts k v) k = some v := by
  unfold setTag
  split_ifs with h
  · exact lookupTag_map_replace ts k v h
  · refine lookupTag_append_entry ts k v ?_
    revert h
    cases ts.any (fun e => e.1 == k) <;> simp

theorem lookupTag_setTag_ne (ts : List (String × String)) (k v k2 : String) (h : k2 ≠ k) :
    lookupTag (setTag ts k v) k2 = lookupTag ts k2 := by
  have hkk : (k == k2) = false := by simp [Ne.symm h]
  unfold setTag
  split_ifs with ha
  · clear ha
    induction ts with
    | nil => rfl
    | cons a l ih =>
      simp only [List.map_cons]
      by_cases h1 : a.1 = k
      · have e1 : (a.1 == k) = true := by simp [h1]
        have e2 : (a.1 == k2) = false := by simp [h1, Ne.symm h]
        rw [show (if (a.1 == k) = true then (k, v) else a) = (k, v) by simp [e1]]
        rw [lookupTag_cons_skip _ _ _ hkk, lookupTag_cons_skip _ _ _ e2]
        exact ih
      · have e1 : (a.1 == k) = false := by simp [h1]
        rw [show (if (a.1 == k) = true then (k, v) else a) = a by simp [e1]]
        cases e2 : (a.1 == k2) with
        | true => rw [lookupTag_cons_hit _ _ _ e2, lookupTag_cons_hit _ _ _ e2]
        | false =>
          rw [lookupTag_cons_skip _ _ _ e2, lookupTag_cons_skip _ _ _ e2]
          exact ih
  · unfold lookupTag
    rw [List.find?_append]
    cases hf : ts.find? (fun e => e.1 == k2) with
    | some e => simp [Option.or]
    | none => simp [Option.or, List.find?_singleton, hkk]

theorem nodup_setTag (ts : List (String × String)) (k v : String)
    (h : (ts.map Prod.fst).Nodup) : ((setTag ts k v).map Prod.fst).Nodup := by
  unfold setTag
  split_ifs with ha
  · have hkeys : (ts.map (fun e => if e.1 == k then (k, v) else e)).map Prod.fst =
        ts.map Prod.fst := by
      rw [List.map_map]
      apply List.map_congr_left
      intro e _
      by_cases h1 : e.1 = k <;> simp [h1]
    rw [hkeys]
    exact h
  · rw [List.map_append]
    apply List.Nodup.append h (by simp)
    intro a ha1 ha2
    have hak : a = k := by simpa using ha2
    subst hak
    obtain ⟨e, he, hea⟩ := List.mem_map.mp ha1
    have hfalse : ts.any (fun e => e.1 == a) = false := by
      revert ha
      cases ts.any (fun e => e.1 == a) <;> simp
    exact List.any_eq_false.mp hfalse e he (by simp [hea])

theorem lookupTag_keyFilterMap (ts : List (String × String)) (ks : List String) (k : String)
    (hnd : ks.Nodup) :
    lookupTag (ks.filterMap (fun k2 => (lookupTag ts k2).map (fun v => (k2, v)))) k =
      if k ∈ ks then lookupTag ts k else none := by
  induction ks with
  | nil => simp [lookupTag]
  | cons a ks ih =>
    have hnd2 : ks.Nodup := (List.nodup_cons.mp hnd).2
    have hnotmem : a ∉ ks := (List.nodup_cons.mp hnd).1
    rw [List.filterMap_cons]
    cases hl : lookupTag ts a with
    | none =>
      dsimp only [Option.map] at ih ⊢
      rw [ih hnd2]
      by_cases hk : k = a
      · subst hk
        simp [hnotmem, hl]
      · simp [hk]
    | some v =>
      dsimp only [Option.map] at ih ⊢
      by_cases hk : k = a
      · subst hk
        rw [lookupTag_cons_hit (k, v) _ k (by simp)]
        simp [hl]
      · have e1 : (((a, v) : String × String).1 == k) = false := by simp [Ne.symm hk]
        rw [lookupTag_cons_skip (a, v) _ k e1]
        rw [ih hnd2]
        simp [hk]

theorem lookupTag_filter_notTarget (ts : List (String × String)) (k : String)
    (hk : targetKeys.contains k = false) :
    lookupTag (ts.filter (fun e => !(targetKeys.contains e.1))) k = lookupTag ts k := by
  induction ts with
  | nil => rfl
  | cons a l ih =>
    rw [List.filter_cons]
    by_cases ha : a.1 = k
    · have h1 : (!(targetKeys.contains a.1)) = true := by rw [ha, hk]; rfl
      have h2 : (a.1 == k) = true := by simp [ha]
      rw [h1, if_pos rfl, lookupTag_cons_hit _ _ _ h2, lookupTag_cons_hit _ _ _ h2]
    · have h2 : (a.1 == k) = false := by simp [ha]
      cases h1 : targetKeys.contains a.1 with
      | true =>
        rw [if_neg (by simp), lookupTag_cons_skip _ _ _ h2]
        exact ih
      | false =>
        rw [if_pos (by rfl), lookupTag_cons_skip _ _ _ h2, lookupTag_cons_skip _ _ _ h2]
        exact ih

theorem lookupTag_filter_target (ts : List (String × String)) (k : String)
    (hk : targetKeys.contains k = true) :
    lookupTag (ts.filter (fun e => !(targetKeys.contains e.1))) k = none := by
  unfold lookupTag
  rw [List.find?_eq_none.mpr]
  · rfl
  · intro e he hek
    have hpass := (List.mem_filter.mp he).2
    have hea : e.1 = k := by simpa using hek
    rw [hea, hk] at hpass
    simp at hpass

theorem lookupTag_append (A B : List (String × String)) (k : String) :
    lookupTag (A ++ B) k =
      match lookupTag A k with
      | some v => some v
      | none => lookupTag B k := by
  unfold lookupTag
  rw [List.find?_append]
  cases hA : A.find? (fun e => e.1 == k) with
  | none => simp [Option.or]
  | some e => simp [Option.or]

/-- `read_metadata` reproduces the tag dictionary entry for entry: its
reordering of the four targeted keys to the front never changes any lookup. -/
theorem lookupTag_buildMeta (ts : List (String × String)) (k : String) :
    lookupTag (buildMeta ts) k = lookupTag ts k := by
  unfold buildMeta
  rw [lookupTag_append, lookupTag_keyFilterMap ts targetKeys k (by decide)]
  by_cases hk : k ∈ targetKeys
  · simp only [hk, if_true]
    cases hl : lookupTag ts k with
    | some v => rfl
    | none =>
      have hc : targetKeys.contains k = true := by simpa using hk
      exact lookupTag_filter_target ts k hc
  · simp only [hk, if_false]
    have hc : targetKeys.contains k = false := by simpa using hk
    exact lookupTag_filter_notTarget ts k hc

theorem keys_keyFilterMap (ts : List (String × String)) (ks : List String) :
    (ks.filterMap (fun k2 => (lookupTag ts k2).map (fun v => (k2, v)))).map Prod.fst =
      ks.filter (fun k2 => (lookupTag ts k2).isSome) := by
  induction ks with
  | nil => rfl
  | cons a ks ih =>
    cases hl : lookupTag ts a <;>
      simp [List.filterMap_cons, hl, List.filter_cons, ih]

/-- The dictionary built by `read_metadata` has no duplicate keys when the
tag block it reads has none. -/
theorem nodup_buildMeta (ts : List (String × String))
    (h : (ts.map Prod.fst).Nodup) : ((buildMeta ts).map Prod.fst).Nodup := by
  unfold buildMeta
  rw [List.map_append, keys_keyFilterMap]
  apply List.Nodup.append
  · exact List.Nodup.filter _ (by decide)
  · exact List.Nodup.sublist (List.Sublist.map _ (List.filter_sublist _)) h
  · intro a ha1 ha2
    have hmem : a ∈ targetKeys := (List.mem_filter.mp ha1).1
    obtain ⟨e, he, hea⟩ := List.mem_map.mp ha2
    have hpass := (List.mem_filter.mp he).2
    rw [hea] at hpass
    have : a ∉ targetKeys := by simpa using hpass
    exact this hmem

/-! ### Claim C2 -/

theorem applyHandler_fail_not_ok (fsb : FS) (evs : List Ev) (path bpath : String) (mr : Bool) :
    (applyHandler (.fail fsb evs) path bpath mr).res ≠ .ok () := by
  unfold applyHandler
  dsimp only
  cases hb : fsGet fsb bpath with
  | none => simp
  | some bfile => split_ifs <;> simp

theorem applyBody_ok_shape (fs1 : FS) (path : String) (mi : MetadataInfo) (orig : MP3File)
    (bpath : String) (env : ApplyEnv) (fsb : FS) (evs : List Ev)
    (h : applyBody fs1 path mi orig bpath env = .ok fsb evs) :
    ∃ sz p hi dl hd rr,
      env.saveOutcome = SaveRes.writes sz p hi dl hd rr ∧
      validate_mp3_file (fsSet fs1 path (savedFileOf orig mi sz p hi dl hd rr)) path = true ∧
      env.removeRaise = false ∧
      fsb = fsErase (fsSet fs1 path (savedFileOf orig mi sz p hi dl hd rr)) bpath := by
  unfold applyBody at h
  split at h
  · exact absurd h (by simp)
  · split at h
    · exact absurd h (by simp)
    · split at h
      · exact absurd h (by simp)
      · rename_i sz p hi dl hd rr heq
        split_ifs at h with hv hrm
        · injection h with h1 h2
          refine ⟨sz, p, hi, dl, hd, rr, heq, ?_, ?_, h1.symm⟩
          · revert hv
            cases validate_mp3_file (fsSet fs1 path (savedFileOf orig mi sz p hi dl hd rr))
              path <;> simp
          · revert hrm
            cases env.removeRaise <;> simp

/-- Every successful `apply_metadata` call went through the save with an
environment-given persisted file, revalidated the result, and left the
directory holding the saved file at the target with the backup removed. -/
theorem apply_metadata_ok_shape (fs : FS) (path : String) (mi : MetadataInfo) (env : ApplyEnv) :
    (apply_metadata fs path mi env).res ≠ .ok () ∨
    ∃ orig sz p hi dl hd rr,
      fsGet fs path = some orig ∧
      env.saveOutcome = SaveRes.writes sz p hi dl hd rr ∧
      validate_mp3_file
        (fsSet (fsSet fs (backupName path env.timestamp) orig) path
          (savedFileOf orig mi sz p hi dl hd rr)) path = true ∧
      (apply_metadata fs path mi env).fs =
        fsErase
          (fsSet (fsSet fs (backupName path env.timestamp) orig) path
            (savedFileOf orig mi sz p hi dl hd rr)) (backupName path env.timestamp) := by
  unfold apply_metadata
  cases hget : fsGet fs path with
  | none => exact Or.inl (by simp)
  | some orig =>
    dsimp only
    split_ifs with h1 h2
    · exact Or.inl (by simp)
    · exact Or.inl (by simp)
    · unfold backup_original
      rw [hget]
      dsimp only
      split_ifs with h3
      · exact Or.inl (by simp)
      · cases hc : env.copyOutcome with
        | raises => exact Or.inl (by simp)
        | writesSize n =>
          dsimp only
          split_ifs with h4
          · exact Or.inl (by simp)
          · have hn : n = orig.sizeB := not_ne_iff.mp h4
            subst hn
            have heta : ({ orig with sizeB := orig.sizeB } : MP3File) = orig := rfl
            rw [heta]
            dsimp only
            cases hbd : applyBody (fsSet fs (backupName path env.timestamp) orig) path mi orig
                (backupName path env.timestamp) env with
            | ok fs3 evs3 =>
              obtain ⟨sz, p, hi, dl, hd, rr, hsave, hval, hrm, hfsb⟩ :=
                applyBody_ok_shape _ _ _ _ _ _ _ _ hbd
              subst hfsb
              exact Or.inr ⟨orig, sz, p, hi, dl, hd, rr, rfl, hsave, hval, rfl⟩
            | fail fsb evs3 =>
              exact Or.inl (applyHandler_fail_not_ok _ _ _ _ _)

/-- Claim C2: for valid metadata fields and a validate-passing file, a
successful `apply_metadata` leaves the file validate-passing, and a
subsequent `read_metadata` returns exactly the updated tag dictionary: the
four targeted keys hold exactly the caller-supplied values (the track
number stringified), every entry for any other key has exactly the value
it had before, and the dictionary has no duplicate keys. The hypotheses
record that the target file existed with a duplicate-free tag block —
Python dictionaries guarantee the latter — and that the call succeeded;
`apply_metadata` itself enforces the field and file validity. -/
theorem apply_metadata_roundtrip (fs : FS) (path : String) (mi : MetadataInfo)
    (env : ApplyEnv) (orig : MP3File)
    (horig : fsGet fs path = some orig)
    (hnd : ((orig.tags.getD []).map Prod.fst).Nodup)
    (hok : (apply_metadata fs path mi env).res = .ok ()) :
    validate_mp3_file (apply_metadata fs path mi env).fs path = true ∧
    read_metadata (apply_metadata fs path mi env).fs path false =
      .ok (buildMeta (newTagsFor (orig.tags.getD []) mi)) ∧
    lookupTag (buildMeta (newTagsFor (orig.tags.getD []) mi)) "TPE1" = some mi.artist ∧
    lookupTag (buildMeta (newTagsFor (orig.tags.getD []) mi)) "TIT2" = some mi.title ∧
    lookupTag (buildMeta (newTagsFor (orig.tags.getD []) mi)) "TALB" = some mi.album ∧
    lookupTag (buildMeta (newTagsFor (orig.tags.getD []) mi)) "TRCK" =
      some (toString mi.trackNumber) ∧
    (∀ k, k ∉ targetKeys →
      lookupTag (buildMeta (newTagsFor (orig.tags.getD []) mi)) k =
        lookupTag (orig.tags.getD []) k) ∧
    ((buildMeta (newTagsFor (orig.tags.getD []) mi)).map Prod.fst).Nodup := by
  rcases apply_metadata_ok_shape fs path mi env with
    hne | ⟨orig2, sz, p, hi, dl, hd, rr, hget2, hsave, hval, hfs⟩
  · exact absurd hok hne
  · have horig2 : orig2 = orig := by
      rw [horig] at hget2
      exact (Option.some.inj hget2).symm
    subst horig2
    have hpathget : fsGet (apply_metadata fs path mi env).fs path =
        some (savedFileOf orig2 mi sz p hi dl hd rr) := by
      rw [hfs, fsGet_fsErase_ne _ _ _ (Ne.symm (backupName_ne path env.timestamp)),
        fsGet_fsSet_self]
    have hvalF : validate_mp3_file (apply_metadata fs path mi env).fs path = true := by
      rw [validate_mp3_file_congr _
        (fsSet (fsSet fs (backupName path env.timestamp) orig2) path
          (savedFileOf orig2 mi sz p hi dl hd rr)) path
        (by rw [hpathget, fsGet_fsSet_self])]
      exact hval
    refine ⟨hvalF, ?_, ?_, ?_, ?_, ?_, ?_, ?_⟩
    · unfold read_metadata
      rw [hpathget]
      simp [hvalF, savedFileOf]
    · rw [lookupTag_buildMeta]
      unfold newTagsFor
      rw [lookupTag_setTag_ne _ _ _ _ (by decide), lookupTag_setTag_ne _ _ _ _ (by decide),
        lookupTag_setTag_ne _ _ _ _ (by decide), lookupTag_setTag_self]
    · rw [lookupTag_buildMeta]
      unfold newTagsFor
      rw [lookupTag_setTag_ne _ _ _ _ (by decide), lookupTag_setTag_ne _ _ _ _ (by decide),
        lookupTag_setTag_self]
    · rw [lookupTag_buildMeta]
      unfold newTagsFor
      rw [lookupTag_setTag_ne _ _ _ _ (by decide), lookupTag_setTag_self]
    · rw [lookupTag_buildMeta]
      unfold newTagsFor
      rw [lookupTag_setTag_self]
    · intro k hk
      have hk1 : k ≠ "TRCK" := by rintro rfl; exact hk (by decide)
      have hk2 : k ≠ "TALB" := by rintro rfl; exact hk (by decide)
      have hk3 : k ≠ "TIT2" := by rintro rfl; exact hk (by decide)
      have hk4 : k ≠ "TPE1" := by rintro rfl; exact hk (by decide)
      rw [lookupTag_buildMeta]
      unfold newTagsFor
      rw [lookupTag_setTag_ne _ _ _ _ hk1, lookupTag_setTag_ne _ _ _ _ hk2,
        lookupTag_setTag_ne _ _ _ _ hk3, lookupTag_setTag_ne _ _ _ _ hk4]
    · exact nodup_buildMeta _
        (nodup_setTag _ _ _ (nodup_setTag _ _ _ (nodup_setTag _ _ _ (nodup_setTag _ _ _ hnd))))

/-- Concrete instance of claim C2: after a successful run on the sample
file, the target still validates, the four keys read back as the supplied
values, and the pre-existing COMM entry is unchanged. -/
theorem apply_metadata_roundtrip_witness :
    validate_mp3_file (apply_metadata sampleFS "song.mp3" sampleMI envOk).fs "song.mp3" = true ∧
    lookupTag (buildMeta (newTagsFor (sampleFile.tags.getD []) sampleMI)) "TPE1" = some "A" ∧
    lookupTag (buildMeta (newTagsFor (sampleFile.tags.getD []) sampleMI)) "TRCK" = some "3" ∧
    lookupTag (buildMeta (newTagsFor (sampleFile.tags.getD []) sampleMI)) "COMM" =
      some "hello" :=
  ⟨(apply_metadata_roundtrip sampleFS "song.mp3" sampleMI envOk sampleFile
      (by rfl) (by decide) (by rfl)).1,
   (apply_metadata_roundtrip sampleFS "song.mp3" sampleMI envOk sampleFile
      (by rfl) (by decide) (by rfl)).2.2.1,
   (apply_metadata_roundtrip sampleFS "song.mp3" sampleMI envOk sampleFile
      (by rfl) (by decide) (by rfl)).2.2.2.2.2.1,
   ((apply_metadata_roundtrip sampleFS "song.mp3" sampleMI envOk sampleFile
      (by rfl) (by decide) (by rfl)).2.2.2.2.2.2.1 "COMM" (by decide)).trans (by rfl)⟩

/-! ### Claim C5 -/

theorem waitLoop_succ (size : Nat → Option Nat) (readHdr : Nat → Option (List Nat))
    (fuel i : Nat) (s : WaitState) :
    waitLoop size readHdr (fuel + 1) i s =
      match size i with
      | none => none
      | some sz =>
        if (sz : Int) = s.lastSize ∧ 0 < sz then
          if 3 ≤ s.stableCount + 1 then
            match readHdr i with
            | some h =>
              if headerCheckMonitor h then some i
              else waitLoop size readHdr fuel (i + 1) ⟨0, s.lastSize⟩
            | none => waitLoop size readHdr fuel (i + 1) ⟨s.stableCount + 1, s.lastSize⟩
          else waitLoop size readHdr fuel (i + 1) ⟨s.stableCount + 1, s.lastSize⟩
        else waitLoop size readHdr fuel (i + 1) ⟨0, (sz : Int)⟩ := rfl

/-- A file whose size differs at every pair of consecutive polls keeps the
stability counter at zero forever: the loop exhausts any poll budget. -/
theorem waitLoop_never_stable (szF : Nat → Nat) (readHdr : Nat → Option (List Nat))
    (hch : ∀ j, szF (j + 1) ≠ szF j) :
    ∀ fuel i s, (szF i : Int) ≠ s.lastSize →
      waitLoop (fun j => some (szF j)) readHdr fuel i s = none := by
  intro fuel
  induction fuel with
  | zero => intro i s _; rfl
  | succ fuel ih =>
    intro i s hne
    rw [waitLoop_succ]
    dsimp only
    rw [if_neg (fun hcon => hne hcon.1)]
    apply ih
    intro hcon
    have hcon2 : (szF (i + 1) : Int) = (szF i : Int) := hcon
    exact hch i (by exact_mod_cast hcon2)

/-- While the size keeps changing, the loop walks from poll `i` to poll
`k + 1` with the counter at zero and the last constant size recorded. -/
theorem waitLoop_phase (szF : Nat → Nat) (readHdr : Nat → Option (List Nat)) (k : Nat)
    (hch : ∀ i < k, szF (i + 1) ≠ szF i) (hk30 : k < 30) :
    ∀ d i, i + d = k → ∀ ls : Int, (szF i : Int) ≠ ls →
      waitLoop (fun j => some (szF j)) readHdr (30 - i) i ⟨0, ls⟩ =
        waitLoop (fun j => some (szF j)) readHdr (30 - (k + 1)) (k + 1) ⟨0, (szF k : Int)⟩ := by
  intro d
  induction d with
  | zero =>
    intro i hi ls hne
    have hik : i = k := by omega
    subst hik
    have hf : 30 - i = (30 - (i + 1)) + 1 := by omega
    rw [hf, waitLoop_succ]
    dsimp only
    rw [if_neg (fun hcon => hne hcon.1)]
  | succ d ih =>
    intro i hi ls hne
    have hik : i < k := by omega
    have hf : 30 - i = (30 - (i + 1)) + 1 := by omega
    rw [hf, waitLoop_succ]
    dsimp only
    rw [if_neg (fun hcon => hne hcon.1)]
    exact ih (i + 1) (by omega) _ (fun hcon => hch i hik (by exact_mod_cast hcon))

/-- From a zero counter at poll `i` with the size already constant and
positive, three more polls reach the header check; a matching signature
completes at poll `i + 2`. -/
theorem waitLoop_climb_ok (szF : Nat → Nat) (readHdr : Nat → Option (List Nat))
    (S i : Nat) (hS : 0 < S)
    (h0 : szF i = S) (h1 : szF (i + 1) = S) (h2 : szF (i + 2) = S)
    (hbytes : List Nat) (hh : readHdr (i + 2) = some hbytes)
    (hok : headerCheckMonitor hbytes = true) (hfuel : i + 2 < 30) :
    waitLoop (fun j => some (szF j)) readHdr (30 - i) i ⟨0, (S : Int)⟩ = some (i + 2) := by
  have hf1 : 30 - i = (30 - (i + 1)) + 1 := by omega
  have hf2 : 30 - (i + 1) = (30 - (i + 2)) + 1 := by omega
  have hf3 : 30 - (i + 2) = (30 - (i + 3)) + 1 := by omega
  rw [hf1, waitLoop_succ]
  dsimp only
  rw [if_pos ⟨by rw [h0], by rw [h0]; exact hS⟩, if_neg (by omega)]
  rw [hf2, waitLoop_succ]
  dsimp only
  rw [if_pos ⟨by rw [h1], by rw [h1]; exact hS⟩, if_neg (by omega)]
  rw [hf3, waitLoop_succ]
  dsimp only
  rw [if_pos ⟨by rw [h2], by rw [h2]; exact hS⟩, if_pos (by omega), hh]
  dsimp only
  rw [if_pos hok]

/-- From a zero counter at poll `i` with the size already constant and
positive, a failing header check at poll `i + 2` resets the counter to
zero and polling continues at poll `i + 3`. -/
theorem waitLoop_climb_bad (szF : Nat → Nat) (readHdr : Nat → Option (List Nat))
    (S i : Nat) (hS : 0 < S)
    (h0 : szF i = S) (h1 : szF (i + 1) = S) (h2 : szF (i + 2) = S)
    (hbytes : List Nat) (hh : readHdr (i + 2) = some hbytes)
    (hbad : headerCheckMonitor hbytes = false) (hfuel : i + 2 < 30) :
    waitLoop (fun j => some (szF j)) readHdr (30 - i) i ⟨0, (S : Int)⟩ =
      waitLoop (fun j => some (szF j)) readHdr (30 - (i + 3)) (i + 3) ⟨0, (S : Int)⟩ := by
  have hf1 : 30 - i = (30 - (i + 1)) + 1 := by omega
  have hf2 : 30 - (i + 1) = (30 - (i + 2)) + 1 := by omega
  have hf3 : 30 - (i + 2) = (30 - (i + 3)) + 1 := by omega
  rw [hf1, waitLoop_succ]
  dsimp only
  rw [if_pos ⟨by rw [h0], by rw [h0]; exact hS⟩, if_neg (by omega)]
  rw [hf2, waitLoop_succ]
  dsimp only
  rw [if_pos ⟨by rw [h1], by rw [h1]; exact hS⟩, if_neg (by omega)]
  rw [hf3, waitLoop_succ]
  dsimp only
  rw [if_pos ⟨by rw [h2], by rw [h2]; exact hS⟩, if_pos (by omega), hh]
  dsimp only
  rw [if_neg (by rw [hbad]; exact Bool.false_ne_true)]

/-- Claim C5: for the one-second stabilization polling of
`wait_for_completion`: a file whose size changes between every pair of
consecutive polls never stabilizes; a file whose size becomes constant and
positive at poll `k` (changing at every pair of polls before that) with a
signature-matching header stabilizes exactly at poll `k + 3`, three polls
— the minimum — after its size stops changing; and when the header check
fails there, the stability counter resets to zero, polling continues, and
a later matching header completes at poll `k + 6`. -/
theorem wait_for_completion_stabilization :
    (∀ (szF : Nat → Nat) (readHdr : Nat → Option (List Nat)),
      (∀ j, szF (j + 1) ≠ szF j) →
      wait_for_completion true (fun j => some (szF j)) readHdr = none) ∧
    (∀ (szF : Nat → Nat) (readHdr : Nat → Option (List Nat)) (k S : Nat) (hbytes : List Nat),
      (∀ i < k, szF (i + 1) ≠ szF i) → (∀ i, k ≤ i → szF i = S) → 0 < S →
      readHdr (k + 3) = some hbytes → headerCheckMonitor hbytes = true → k + 3 < 30 →
      wait_for_completion true (fun j => some (szF j)) readHdr = some (k + 3)) ∧
    (∀ (szF : Nat → Nat) (readHdr : Nat → Option (List Nat)) (k S : Nat) (hb hg : List Nat),
      (∀ i < k, szF (i + 1) ≠ szF i) → (∀ i, k ≤ i → szF i = S) → 0 < S →
      readHdr (k + 3) = some hb → headerCheckMonitor hb = false →
      readHdr (k + 6) = some hg → headerCheckMonitor hg = true → k + 6 < 30 →
      wait_for_completion true (fun j => some (szF j)) readHdr = some (k + 6)) := by
  have hinit : ∀ szF : Nat → Nat, (szF 0 : Int) ≠ (-1 : Int) := by
    intro szF hcon
    have := Int.natCast_nonneg (szF 0)
    omega
  refine ⟨?_, ?_, ?_⟩
  · intro szF readHdr hch
    unfold wait_for_completion completionTimeout
    rw [if_pos rfl]
    exact waitLoop_never_stable szF readHdr hch 30 0 ⟨0, -1⟩ (hinit szF)
  · intro szF readHdr k S hbytes hch hconst hS hh hok hlt
    unfold wait_for_completion completionTimeout
    rw [if_pos rfl]
    rw [show (30 : Nat) = 30 - 0 from rfl]
    rw [waitLoop_phase szF readHdr k hch (by omega) k 0 (by omega) (-1) (hinit szF)]
    rw [hconst k (le_refl k)]
    exact waitLoop_climb_ok szF readHdr S (k + 1) hS
      (hconst (k + 1) (by omega)) (hconst (k + 2) (by omega)) (hconst (k + 3) (by omega))
      hbytes hh hok (by omega)
  · intro szF readHdr k S hb hg hch hconst hS hh1 hbad hh2 hok hlt
    unfold wait_for_completion completionTimeout
    rw [if_pos rfl]
    rw [show (30 : Nat) = 30 - 0 from rfl]
    rw [waitLoop_phase szF readHdr k hch (by omega) k 0 (by omega) (-1) (hinit szF)]
    rw [hconst k (le_refl k)]
    rw [waitLoop_climb_bad szF readHdr S (k + 1) hS
      (hconst (k + 1) (by omega)) (hconst (k + 2) (by omega)) (hconst (k + 3) (by omega))
      hb hh1 hbad (by omega)]
    exact waitLoop_climb_ok szF readHdr S (k + 4) hS
      (hconst (k + 4) (by omega)) (hconst (k + 5) (by omega)) (hconst (k + 6) (by omega))
      hg hh2 hok (by omega)

/-- Concrete instances of claim C5: an ever-growing file never stabilizes;
a file of constant size 5 with an ID3 header stabilizes at poll 3; with a
bad header at poll 3 and a good one from then on it stabilizes at poll 6. -/
theorem wait_for_completion_stabilization_witness :
    wait_for_completion true (fun j => some j) (fun _ => some [73, 68, 51]) = none ∧
    wait_for_completion true (fun _ => some 5) (fun _ => some [73, 68, 51]) = some 3 ∧
    wait_for_completion true (fun _ => some 5)
      (fun i => if i = 3 then some [0, 0, 0] else some [73, 68, 51]) = some 6 :=
  ⟨wait_for_completion_stabilization.1 (fun j => j) (fun _ => some [73, 68, 51])
      (fun j => Nat.succ_ne_self j),
   wait_for_completion_stabilization.2.1 (fun _ => 5) (fun _ => some [73, 68, 51]) 0 5
      [73, 68, 51] (fun i hi => absurd hi (Nat.not_lt_zero i)) (fun _ _ => rfl)
      (by decide) rfl (by decide) (by decide),
   wait_for_completion_stabilization.2.2 (fun _ => 5)
      (fun i => if i = 3 then some [0, 0, 0] else some [73, 68, 51]) 0 5
      [0, 0, 0] [73, 68, 51] (fun i hi => absurd hi (Nat.not_lt_zero i)) (fun _ _ => rfl)
      (by decide) (by decide) (by decide) (by decide) (by decide) (by decide)⟩

end YTMP3
